import Mathlib

/-!
Verification of the rosetta content-structuring core.

The definitions below are a shallow embedding of the JavaScript source:
the element sequence model (src/parser/sequence.js), the grouping engine
(src/parser/groups.js), the type indexer (src/parser/types.js) and the
validator (src/validation/index.js).  JavaScript objects become Lean
structures, the per-element loops become folds or structural recursions,
and a thrown TypeError is modelled by an Option result with value none.
-/

namespace Rosetta

/-- Element is the atomic unit of the sequence, exactly the object shapes
built by processNode and processImageNode in src/parser/sequence.js. -/
inductive Element where
  | heading (level : Nat) (content : String) (position : Nat) (labels : List String)
  | paragraph (content : String) (position : Nat)
  | image (role : String) (src : String) (alt : String) (title : Option String) (position : Nat)
  | divider (position : Nat)
  | list (ordered : Bool) (items : List String) (position : Nat)
  | code (language : Option String) (content : String) (position : Nat)
deriving DecidableEq

/-- The position field shared by every element shape. -/
def Element.position : Element → Nat
  | .heading _ _ p _ => p
  | .paragraph _ p => p
  | .image _ _ _ _ p => p
  | .divider p => p
  | .list _ _ p => p
  | .code _ _ p => p

/-- The string stored in the type field of each element object. -/
def Element.jsType : Element → String
  | .heading _ _ _ _ => "heading"
  | .paragraph _ _ => "paragraph"
  | .image _ _ _ _ _ => "image"
  | .divider _ => "divider"
  | .list _ _ _ => "list"
  | .code _ _ _ => "code"

/-- Recognizer for heading elements. -/
def Element.isHeading : Element → Bool
  | .heading _ _ _ _ => true
  | _ => false

/-- Recognizer for image elements. -/
def Element.isImage : Element → Bool
  | .image _ _ _ _ _ => true
  | _ => false

/-- Recognizer for divider elements. -/
def Element.isDivider : Element → Bool
  | .divider _ => true
  | _ => false

/-- The level field of a heading element; the grouping code reads this
field only on elements whose type is heading. -/
def Element.levelD : Element → Nat
  | .heading l _ _ _ => l
  | _ => 0

/-- The role field of an image element; the type indexer reads this field
only on elements whose type is image. -/
def Element.roleD : Element → String
  | .image r _ _ _ _ => r
  | _ => ""

/-! ## Grouping engine

Embedding of the second processGroups implementation in the repository
(the variant whose shouldStartNewGroup, isEyebrowPattern, addHeadingToGroup
and isMainGroup the claims cite).  The lookahead slice
sequence.slice(position + 1) is exactly the list of elements after the one
being processed, so the loop below carries that remainder directly. -/

/-- The three heading slots of a group. -/
structure Headings where
  eyebrow : Option Element
  title : Option Element
  subtitle : Option Element
deriving DecidableEq

/-- Group metadata: inferred level, media flag, and the content type set
(a JS Set, modelled as a deduplicated list in insertion order). -/
structure GroupMetadata where
  level : Option Nat
  hasMedia : Bool
  contentTypes : List String
deriving DecidableEq

/-- A content group under construction or finalized. -/
structure Group where
  headings : Headings
  content : List Element
  metadata : GroupMetadata
deriving DecidableEq

/-- The grouping engine output: main group plus ordered item groups. -/
structure Structure where
  main : Option Group
  items : List Group
deriving DecidableEq

/-- createNewGroup: fresh group; when called with a heading element only
the level of that heading is stored in the metadata. -/
def createNewGroup (headingElement : Option Element) : Group :=
  { headings := { eyebrow := none, title := none, subtitle := none }
    content := []
    metadata :=
      { level := headingElement.map Element.levelD
        hasMedia := false
        contentTypes := [] } }

/-- isEyebrowPattern: look ahead in the elements after the current one for
the next heading; an eyebrow pattern holds when that heading has a strictly
smaller numeric level. -/
def isEyebrowPattern (heading : Element) (rest : List Element) : Bool :=
  match rest.find? Element.isHeading with
  | some nextHeading => nextHeading.levelD < heading.levelD
  | none => false

/-- shouldStartNewGroup from the cited grouping variant.  The truthiness
test on currentGroup.metadata.level treats both null and 0 as falsy. -/
def shouldStartNewGroup (heading : Element) (currentGroup : Option Group)
    (rest : List Element) : Bool :=
  match currentGroup with
  | none => true
  | some g =>
    if g.content.length = 0 && g.headings.title.isNone then true
    else if isEyebrowPattern heading rest then false
    else
      match g.metadata.level with
      | some lvl =>
          if lvl ≠ 0 then decide (0 < g.content.length) && decide (heading.levelD ≤ lvl)
          else true
      | none => true

/-- addHeadingToGroup from the cited grouping variant: fill the title, or
promote or demote around the existing title; a heading whose level equals
the title level leaves the group unchanged. -/
def addHeadingToGroup (group : Group) (heading : Element) : Group :=
  match group.headings.title with
  | none =>
      { group with
        headings := { group.headings with title := some heading }
        metadata := { group.metadata with level := some heading.levelD } }
  | some t =>
      if heading.levelD < t.levelD then
        { group with
          headings :=
            { eyebrow := group.headings.eyebrow
              title := some heading
              subtitle := some t }
          metadata := { group.metadata with level := some heading.levelD } }
      else if t.levelD < heading.levelD then
        if group.content.length = 0 && group.headings.subtitle.isNone then
          { group with
            headings :=
              { eyebrow := some t
                title := some heading
                subtitle := group.headings.subtitle }
            metadata := { group.metadata with level := some heading.levelD } }
        else
          { group with headings := { group.headings with subtitle := some heading } }
      else group

/-- isMainGroup from the cited grouping variant: a level-1 title, or a
title together with nonempty content. -/
def isMainGroup (group : Group) : Bool :=
  (match group.headings.title with
   | some t => t.levelD = 1
   | none => false)
  || (group.headings.title.isSome && group.content.length != 0)

/-- Insert a string into a JS Set modelled as a deduplicated list keeping
insertion order. -/
def insertUniq (l : List String) (s : String) : List String :=
  if s ∈ l then l else l ++ [s]

/-- addGroupToStructure: refresh the metadata of the finalized group, then
classify it as main (first qualifying group) or append it to items. -/
def addGroupToStructure (group : Group) (st : Structure) : Structure :=
  let g :=
    { group with
      metadata :=
        { group.metadata with
          hasMedia := group.content.any Element.isImage
          contentTypes :=
            group.content.foldl (fun acc e => insertUniq acc e.jsType)
              group.metadata.contentTypes } }
  if st.main.isNone && isMainGroup g then { st with main := some g }
  else { st with items := st.items ++ [g] }

/-- The main loop of processGroups.  A heading for which shouldStartNewGroup
holds finalizes the current group and opens a fresh group carrying only the
level of that heading; other headings are absorbed by addHeadingToGroup;
non-heading non-divider elements are appended to the current content.  The
map on the absorbed-heading branch is never the none case because
shouldStartNewGroup answers true whenever there is no current group. -/
def processGroupsLoop : List Element → Option Group → Structure → Structure
  | [], currentGroup, st =>
      match currentGroup with
      | some g => addGroupToStructure g st
      | none => st
  | e :: rest, currentGroup, st =>
      if e.jsType = "divider" then
        let st2 :=
          match currentGroup with
          | some g => addGroupToStructure g st
          | none => st
        processGroupsLoop rest (some (createNewGroup none)) st2
      else if e.jsType = "heading" then
        if shouldStartNewGroup e currentGroup rest then
          let st2 :=
            match currentGroup with
            | some g => addGroupToStructure g st
            | none => st
          processGroupsLoop rest (some (createNewGroup (some e))) st2
        else
          processGroupsLoop rest (currentGroup.map (fun g => addHeadingToGroup g e)) st
      else
        let g :=
          match currentGroup with
          | some g => g
          | none => createNewGroup none
        processGroupsLoop rest (some { g with content := g.content ++ [e] }) st

/-- processGroups: transform a sequence into the grouped structure. -/
def processGroups (sequence : List Element) : Structure :=
  processGroupsLoop sequence none { main := none, items := [] }

/-- Total length of the content lists over main and items. -/
def Structure.contentSize (st : Structure) : Nat :=
  (match st.main with
   | some g => g.content.length
   | none => 0)
  + (st.items.map (fun g => g.content.length)).sum

/-- Number of filled heading slots of one group. -/
def Group.slotCount (g : Group) : Nat :=
  (if g.headings.eyebrow.isSome then 1 else 0)
  + (if g.headings.title.isSome then 1 else 0)
  + (if g.headings.subtitle.isSome then 1 else 0)

/-- Number of filled heading slots over main and items. -/
def Structure.slotCount (st : Structure) : Nat :=
  (match st.main with
   | some g => g.slotCount
   | none => 0)
  + (st.items.map Group.slotCount).sum

/-- Number of divider elements in a sequence. -/
def dividerCount (sequence : List Element) : Nat :=
  sequence.countP (fun e => e.isDivider)

/-! ## Sequencer

Embedding of src/parser/sequence.js (the second variant in the repository,
whose processNode strips label markers and whose processImageNode defaults
the role at position 0; the claims cite this variant).  Markdown AST nodes
are modelled as one node shape carrying every field the code reads; the
children field is a list, matching the fact that a JS array (empty or not)
is truthy.  The character class of the \s regex escape is modelled by the
ASCII whitespace characters plus the no-break space, which covers every
input the repository feeds to these regexes. -/

/-- Whitespace characters recognized by the \s class in the source regexes. -/
def jsWhitespace (c : Char) : Bool :=
  c = ' ' || c = '\t' || c = '\n' || c = '\r' || c = '\x0b' || c = '\x0c' || c = ' '

/-- Line terminators, which the dot of a JS regex never matches. -/
def jsLineBreak (c : Char) : Bool :=
  c = '\n' || c = '\r' || c = ' ' || c = ' '

/-- Characters of the \w class together with the dash, as in [\w-]. -/
def isWordChar (c : Char) : Bool :=
  c.isAlphanum || c = '_' || c = '-'

/-- A markdown AST node: a kind tag plus the fields the sequencer reads. -/
inductive Ast where
  | mk (kind : String) (depth : Nat) (value : Option String) (alt : Option String)
      (url : String) (title : Option String) (ordered : Bool) (lang : Option String)
      (children : List Ast)

/-- The kind tag of a node. -/
def Ast.kind : Ast → String
  | .mk k _ _ _ _ _ _ _ _ => k

/-- The depth field of a heading node. -/
def Ast.depth : Ast → Nat
  | .mk _ d _ _ _ _ _ _ _ => d

/-- The raw text value of a leaf node, when present. -/
def Ast.value : Ast → Option String
  | .mk _ _ v _ _ _ _ _ _ => v

/-- The alt text of an image node, when present. -/
def Ast.alt : Ast → Option String
  | .mk _ _ _ a _ _ _ _ _ => a

/-- The url of an image node. -/
def Ast.url : Ast → String
  | .mk _ _ _ _ u _ _ _ _ => u

/-- The title of an image node, when present. -/
def Ast.title : Ast → Option String
  | .mk _ _ _ _ _ t _ _ _ => t

/-- The ordered flag of a list node. -/
def Ast.ordered : Ast → Bool
  | .mk _ _ _ _ _ _ o _ _ => o

/-- The language tag of a code node, when present. -/
def Ast.lang : Ast → Option String
  | .mk _ _ _ _ _ _ _ l _ => l

/-- The child list of a node. -/
def Ast.children : Ast → List Ast
  | .mk _ _ _ _ _ _ _ _ cs => cs

/-- The JS expression x OR null for an optional string x: an empty string
is falsy and collapses to null. -/
def jsOrNone (o : Option String) : Option String :=
  match o with
  | some s => if s = "" then none else some s
  | none => none

mutual

/-- getTextContent: the value of the node when that string is truthy,
otherwise the concatenation of the text of all children. -/
def getTextContent : Ast → String
  | .mk _ _ v _ _ _ _ _ cs =>
      match v with
      | some s => if s = "" then getTextContentList cs else s
      | none => getTextContentList cs

/-- Concatenated text of a list of nodes, joined with no separator. -/
def getTextContentList : List Ast → String
  | [] => ""
  | c :: cs => getTextContent c ++ getTextContentList cs

end

/-- Match of one role alternative of the regex
(background OR icon OR gallery) colon \s* (.*): the prefix must be the role
word and a colon; the description group is the rest with leading whitespace
skipped, up to the first line terminator. -/
def tryRoleAlt (role : String) (cs : List Char) : Option (String × String) :=
  let pre := role.toList ++ [':']
  if cs.take pre.length = pre then
    let rest := (cs.drop pre.length).dropWhile jsWhitespace
    some (role, String.mk (rest.takeWhile (fun c => !jsLineBreak c)))
  else none

/-- The anchored role-prefix regex applied to an alt text; the three
alternatives have distinct first letters so the order cannot matter. -/
def altRoleMatch (alt : String) : Option (String × String) :=
  let cs := alt.toList
  match tryRoleAlt "background" cs with
  | some r => some r
  | none =>
      match tryRoleAlt "icon" cs with
      | some r => some r
      | none => tryRoleAlt "gallery" cs

/-- Maximal runs of non-whitespace characters, as produced by splitting a
string with no leading whitespace on the regex \s+. -/
def wsSplit (cs : List Char) : List (List Char) :=
  (cs.splitOnP jsWhitespace).filter (fun l => l ≠ [])

/-- One captured label token, of the shape dot followed by at least one
word character. -/
def validLabelToken : List Char → Bool
  | '.' :: rest => rest ≠ [] && rest.all isWordChar
  | _ => false

/-- The label-marker regex of extractLabels: a brace-enclosed run of
dot-prefixed identifiers separated by whitespace, at the end of the text
up to trailing whitespace.  The body of a match cannot contain a brace, so
a match exists exactly when the text decomposes around its last opening
brace; the returned strings are the identifiers with the dot removed, as
produced by split on \s+ and substring from index 1. -/
def labelsOfText (text : String) : List String :=
  let r := text.toList.reverse.dropWhile jsWhitespace
  match r with
  | '}' :: r2 =>
      let bodyRev := r2.takeWhile (fun c => c ≠ '{' && c ≠ '}')
      match r2.drop bodyRev.length with
      | '{' :: _ =>
          let body := bodyRev.reverse
          let toks := wsSplit body
          if (match body.head? with | some c => !jsWhitespace c | none => false)
              && (match bodyRev.head? with | some c => !jsWhitespace c | none => false)
              && toks.all validLabelToken then
            toks.map (fun t => String.mk t.tail)
          else []
      | _ => []
  | _ => []

/-- extractLabels: the labels found in the concatenated text of the node. -/
def extractLabels (n : Ast) : List String :=
  labelsOfText (getTextContent n)

/-- The replace call on heading content with the single-label regex
\s* brace dot word-chars brace \s* end: remove that suffix when it is
present, otherwise return the text unchanged.  Note that this regex admits
exactly one label while the extraction regex admits several. -/
def stripLabelMarker (text : String) : String :=
  let r := text.toList.reverse.dropWhile jsWhitespace
  match r with
  | '}' :: r1 =>
      let wordRev := r1.takeWhile isWordChar
      if wordRev = [] then text
      else
        match r1.drop wordRev.length with
        | '.' :: '{' :: r2 => String.mk ((r2.dropWhile jsWhitespace).reverse)
        | _ => text
  | _ => text

/-- processImageNode: split an explicit role prefix out of the alt text;
with no prefix the role is content except at position 0, where it is
background. -/
def processImageNode (n : Ast) (position : Nat) : Element :=
  let alt := n.alt.getD ""
  let roleMatch := altRoleMatch alt
  let role :=
    match roleMatch with
    | some rm => rm.1
    | none => if position = 0 then "background" else "content"
  let cleanAlt :=
    match roleMatch with
    | some rm => rm.2
    | none => alt
  .image role n.url cleanAlt (jsOrNone n.title) position

/-- processNode: map one AST node to an element, or skip it.  A paragraph
whose only child is an image collapses to that image; the heading branch
always strips through the single-label regex because a child array (even
empty) is truthy in JS. -/
def processNode (n : Ast) (position : Nat) : Option Element :=
  match n.kind with
  | "heading" =>
      some (.heading n.depth (stripLabelMarker (getTextContent n)) position (extractLabels n))
  | "paragraph" =>
      match n.children with
      | [c] =>
          if c.kind = "image" then some (processImageNode c position)
          else some (.paragraph (getTextContent n) position)
      | _ => some (.paragraph (getTextContent n) position)
  | "image" => some (processImageNode n position)
  | "thematicBreak" => some (.divider position)
  | "list" => some (.list n.ordered (n.children.map getTextContent) position)
  | "code" => some (.code (jsOrNone n.lang) (n.value.getD "") position)
  | _ => none

mutual

/-- One step of the pre-order visit of processSequence: the position
counter is read and incremented at every visited node, whether or not the
node emits an element, and the children are then visited in order. -/
def visitNode : Ast → Nat → List Element → Nat × List Element
  | n@(.mk _ _ _ _ _ _ _ _ cs), pos, acc =>
      let acc2 :=
        match processNode n pos with
        | some e => acc ++ [e]
        | none => acc
      visitChildren cs (pos + 1) acc2

/-- Visit a list of sibling nodes in order, threading the counter. -/
def visitChildren : List Ast → Nat → List Element → Nat × List Element
  | [], pos, acc => (pos, acc)
  | c :: cs, pos, acc =>
      let r := visitNode c pos acc
      visitChildren cs r.1 r.2

end

/-- processSequence: flatten an AST into the element sequence. -/
def processSequence (ast : Ast) : List Element :=
  (visitNode ast 0 []).2

/-! ## Type indexer

Embedding of processByType in src/parser/types.js.  Each bucket holds the
element spread together with its context record.  Indexing the images
object at a key other than its four declared buckets yields undefined and
the push call throws a TypeError; that exception is modelled by a none
result.  The helper closures attached by addCollectionHelpers are
functions, not data, and are not part of this model. -/

/-- The context record attached to each indexed element. -/
structure ElementContext where
  position : Nat
  previousElement : Option Element
  nextElement : Option Element
  nearestHeading : Option Element
deriving DecidableEq

/-- getElementContext: immediate neighbours at the given index of the flat
sequence, and the nearest heading at a strictly smaller index. -/
def getElementContext (sequence : List Element) (position : Nat) : ElementContext :=
  { position := position
    previousElement := if 0 < position then sequence[position - 1]? else none
    nextElement := if position < sequence.length - 1 then sequence[position + 1]? else none
    nearestHeading := ((sequence.take position).reverse).find? Element.isHeading }

/-- The four declared role buckets of the images object. -/
structure ImageBuckets where
  background : List (Element × ElementContext)
  content : List (Element × ElementContext)
  gallery : List (Element × ElementContext)
  icons : List (Element × ElementContext)
deriving DecidableEq

/-- The metadata record of the type index. -/
structure TypeIndexMetadata where
  totalElements : Nat
  dominantType : Option String
  hasMedia : Bool
deriving DecidableEq

/-- The collections object built by processByType. -/
structure Collections where
  headings : List (Element × ElementContext)
  paragraphs : List (Element × ElementContext)
  images : ImageBuckets
  lists : List (Element × ElementContext)
  code : List (Element × ElementContext)
  dividers : List (Element × ElementContext)
  metadata : TypeIndexMetadata
deriving DecidableEq

/-- The initial collections object. -/
def initCollections (sequence : List Element) : Collections :=
  { headings := []
    paragraphs := []
    images := { background := [], content := [], gallery := [], icons := [] }
    lists := []
    code := []
    dividers := []
    metadata := { totalElements := sequence.length, dominantType := none, hasMedia := false } }

/-- One iteration of the forEach in processByType: push the element with
its context into the bucket selected by its type, and for images by the
role (an empty role string is falsy and falls back to content).  A role
outside the four declared buckets throws, yielding none. -/
def processByTypeStep (sequence : List Element) (index : Nat) (e : Element)
    (c : Collections) : Option Collections :=
  let ctx := getElementContext sequence index
  if e.jsType = "heading" then some { c with headings := c.headings ++ [(e, ctx)] }
  else if e.jsType = "paragraph" then some { c with paragraphs := c.paragraphs ++ [(e, ctx)] }
  else if e.jsType = "image" then
    let role := if e.roleD = "" then "content" else e.roleD
    if role = "background" then
      some { c with
        images := { c.images with background := c.images.background ++ [(e, ctx)] }
        metadata := { c.metadata with hasMedia := true } }
    else if role = "content" then
      some { c with
        images := { c.images with content := c.images.content ++ [(e, ctx)] }
        metadata := { c.metadata with hasMedia := true } }
    else if role = "gallery" then
      some { c with
        images := { c.images with gallery := c.images.gallery ++ [(e, ctx)] }
        metadata := { c.metadata with hasMedia := true } }
    else if role = "icons" then
      some { c with
        images := { c.images with icons := c.images.icons ++ [(e, ctx)] }
        metadata := { c.metadata with hasMedia := true } }
    else none
  else if e.jsType = "list" then some { c with lists := c.lists ++ [(e, ctx)] }
  else if e.jsType = "code" then some { c with code := c.code ++ [(e, ctx)] }
  else if e.jsType = "divider" then some { c with dividers := c.dividers ++ [(e, ctx)] }
  else some c

/-- The forEach of processByType over the sequence, carrying the index. -/
def processByTypeGo (sequence : List Element) :
    List Element → Nat → Collections → Option Collections
  | [], _, c => some c
  | e :: rest, i, c =>
      match processByTypeStep sequence i e c with
      | some c2 => processByTypeGo sequence rest (i + 1) c2
      | none => none

/-- Increment the count of a type in the frequency map, an insertion-order
association list. -/
def bumpFrequency (m : List (String × Nat)) (t : String) : List (String × Nat) :=
  if m.any (fun p => p.1 = t) then
    m.map (fun p => if p.1 = t then (p.1, p.2 + 1) else p)
  else m ++ [(t, 1)]

/-- The dominant type: walk the frequency map in insertion order keeping
the first type whose count strictly exceeds the running maximum, which
starts at zero. -/
def dominantOf (freq : List (String × Nat)) : Option String :=
  (freq.foldl (fun acc p => if acc.2 < p.2 then (some p.1, p.2) else acc)
    ((none : Option String), 0)).1

/-- processByType: run the forEach, then fill in the dominant type.  The
frequency map is built inside the same forEach in the source but feeds
only this final metadata field, and on the throwing path the whole result
is discarded, so building it by a separate fold over the same sequence is
observationally identical. -/
def processByType (sequence : List Element) : Option Collections :=
  match processByTypeGo sequence sequence 0 (initCollections sequence) with
  | some c =>
      let freq := sequence.foldl (fun m e => bumpFrequency m e.jsType) []
      some { c with metadata := { c.metadata with dominantType := dominantOf freq } }
  | none => none

/-- The elements of all nine buckets, concatenated, without their context
records. -/
def Collections.allBucketElements (c : Collections) : List Element :=
  (c.headings ++ c.paragraphs ++ c.images.background ++ c.images.content
    ++ c.images.gallery ++ c.images.icons ++ c.lists ++ c.code ++ c.dividers).map Prod.fst

/-- Comparison of elements by position, non-strict. -/
def posLe (a b : Element) : Prop := a.position ≤ b.position

instance : DecidableRel posLe := fun a b => Nat.decLe a.position b.position

instance : IsTotal Element posLe := ⟨fun a b => Nat.le_total a.position b.position⟩

instance : IsTrans Element posLe := ⟨fun _ _ _ h1 h2 => Nat.le_trans h1 h2⟩

/-- Comparison of elements by position, strict. -/
def posLt (a b : Element) : Prop := a.position < b.position

instance : IsAntisymm Element posLt :=
  ⟨fun a _ h1 h2 => absurd (Nat.lt_trans h1 h2) (Nat.lt_irrefl a.position)⟩

/-- Re-sorting a list of elements by position. -/
def sortByPosition (l : List Element) : List Element :=
  l.insertionSort posLe

/-- The key the image case of processByType will index the images object
with is one of its four declared buckets.  The sequencer can produce the
role icon, which is not declared. -/
def imageRoleDeclared (e : Element) : Prop :=
  e.jsType = "image" →
    (if e.roleD = "" then "content" else e.roleD)
      ∈ (["background", "content", "gallery", "icons"] : List String)

instance (e : Element) : Decidable (imageRoleDeclared e) := by
  unfold imageRoleDeclared
  infer_instance

/-! ## Validator

Embedding of src/validation/index.js.  Diagnostics are modelled by their
kind tag and message; the optional location reference carries no further
information used by any check.  A missing or non-array sequence makes
validateOrphanedContent reach a member access on undefined, so the whole
validation call throws after having accumulated partial results that are
then lost; that path is modelled by a none result. -/

/-- One diagnostic: a kind tag and a message. -/
structure Diag where
  kind : String
  message : String
deriving DecidableEq

/-- The validation result lists, one per severity. -/
structure Results where
  errors : List Diag
  warnings : List Diag
  suggestions : List Diag
deriving DecidableEq

/-- The JS typeof distinction the props check makes: an object, or some
other truthy value. -/
inductive PropsShape where
  | object
  | primitive
deriving DecidableEq

/-- The images view the validator reads from the type index. -/
structure VImagesView where
  background : List Element
deriving DecidableEq

/-- The byType view the validator reads: heading list and background
images. -/
structure VByType where
  headings : List Element
  images : VImagesView
deriving DecidableEq

/-- The content record handed to validateContent: the sequence (none
models a missing or non-array value), the groups, and the byType view. -/
structure SectionContent where
  sequence : Option (List Element)
  groups : Structure
  byType : VByType

/-- validateFrontmatter: missing component name, and props of a non-object
type. -/
def validateFrontmatter (component : Option String) (props : Option PropsShape)
    (r : Results) : Results :=
  let r1 :=
    if component.getD "" = "" then
      { r with errors := r.errors ++ [⟨"missing_component", "Component name is required in frontmatter"⟩] }
    else r
  match props with
  | some .primitive =>
      { r1 with errors := r1.errors ++ [⟨"invalid_props", "Props must be an object"⟩] }
  | _ => r1

/-- validateHeadingHierarchy: with no headings, one warning; otherwise one
warning per heading whose level exceeds the previous level plus one, the
previous level starting at zero. -/
def validateHeadingHierarchy (headings : List Element) (r : Results) : Results :=
  if headings.isEmpty then
    { r with warnings := r.warnings ++ [⟨"no_headings", "Content has no headings"⟩] }
  else
    (headings.foldl
      (fun st h =>
        let prev := st.1
        let acc := st.2
        let acc2 :=
          if prev + 1 < h.levelD then
            { acc with
              warnings := acc.warnings
                ++ [⟨"skipped_heading_level",
                    "Heading level skipped from h" ++ toString prev ++ " to h" ++ toString h.levelD⟩] }
          else acc
        (h.levelD, acc2))
      (0, r)).2

/-- The empty-group check of validateStructure: one warning per item group
with no content and no filled heading slot. -/
def emptyGroupWarnings (items : List Group) (r : Results) : Results :=
  (items.enum.foldl
    (fun acc ig =>
      let i := ig.1
      let g := ig.2
      if g.content.isEmpty
          && !(g.headings.eyebrow.isSome || g.headings.title.isSome || g.headings.subtitle.isSome) then
        { acc with warnings := acc.warnings ++ [⟨"empty_group", "Group " ++ toString (i + 1) ++ " is empty"⟩] }
      else acc)
    r)

/-- validateOrphanedContent: collect the positions of the content elements
of main and of every item group, then warn for every sequence element
whose array index is not among those positions, dividers excluded. -/
def validateOrphanedContent (seq : List Element) (groups : Structure) (r : Results) : Results :=
  let groupedPositions :=
    (match groups.main with
     | some g => g.content.map Element.position
     | none => [])
    ++ (groups.items.map (fun g => g.content.map Element.position)).flatten
  (seq.enum.foldl
    (fun acc ie =>
      let i := ie.1
      let e := ie.2
      if ¬ (i ∈ groupedPositions) ∧ e.jsType ≠ "divider" then
        { acc with warnings := acc.warnings ++ [⟨"orphaned_content", e.jsType ++ " element not part of any group"⟩] }
      else acc)
    r)

/-- findNearbyHeading: scan the sequence indices i with
max(0, position - 2) ≤ i < min(length, position + 2) for the first
heading; the truncated subtraction on Nat is the max with zero. -/
def findNearbyHeading (element : Element) (seq : List Element) : Option Element :=
  let pos := element.position
  let searchRange := 2
  let lo := pos - searchRange
  let hi := min seq.length (pos + searchRange)
  ((seq.drop lo).take (hi - lo)).find? Element.isHeading

/-- validateContentGroups: main-group checks, then the orphaned-content
check once more. -/
def validateContentGroups (seq : List Element) (groups : Structure) (r : Results) : Results :=
  let r1 :=
    match groups.main with
    | some g =>
        if g.headings.title.isNone then
          { r with warnings := r.warnings ++ [⟨"no_main_title", "Main content group has no title"⟩] }
        else r
    | none =>
        { r with suggestions := r.suggestions ++ [⟨"no_main_group", "Content has no clear main group"⟩] }
  validateOrphanedContent seq groups r1

/-- validateRelationships: one suggestion per background image with no
nearby heading, then the content-group checks. -/
def validateRelationships (seq : List Element) (c : SectionContent) (r : Results) : Results :=
  let r1 :=
    c.byType.images.background.foldl
      (fun acc image =>
        if (findNearbyHeading image seq).isNone then
          { acc with suggestions := acc.suggestions ++ [⟨"orphaned_background", "Background image has no associated heading"⟩] }
        else acc)
      r
  validateContentGroups seq c.groups r1

/-- validateStructure on a present sequence: heading hierarchy, empty item
groups, and the first orphaned-content pass. -/
def validateStructure (seq : List Element) (c : SectionContent) (r : Results) : Results :=
  let r1 := validateHeadingHierarchy c.byType.headings r
  let r2 := emptyGroupWarnings c.groups.items r1
  validateOrphanedContent seq c.groups r2

/-- validateContent: frontmatter checks, structure checks, relationship
checks.  When the sequence is missing the structure check records an
invalid-sequence error and returns early, but the relationship pass then
dereferences the missing sequence and throws, losing every accumulated
diagnostic; that path is the none result. -/
def validateContent (component : Option String) (props : Option PropsShape)
    (c : SectionContent) : Option Results :=
  match c.sequence with
  | none => none
  | some seq =>
      let r0 : Results := { errors := [], warnings := [], suggestions := [] }
      let r1 := validateFrontmatter component props r0
      let r2 := validateStructure seq c r1
      some (validateRelationships seq c r2)

instance : DecidableRel posLt := fun a b => Nat.decLt a.position b.position

/-! ## Concrete inputs used by the verification -/

/-- A sequence holding one level-1 heading. -/
def c1seq : List Element := [.heading 1 "T" 0 []]

/-- The image of the eyebrow-pattern sequence. -/
def c2img : Element := .image "content" "w.png" "WELCOME" none 0

/-- The level-3 heading of the eyebrow-pattern sequence. -/
def c2h3 : Element := .heading 3 "WELCOME" 1 []

/-- The level-1 heading of the eyebrow-pattern sequence. -/
def c2h1 : Element := .heading 1 "Title" 2 []

/-- The level-2 heading of the eyebrow-pattern sequence. -/
def c2h2 : Element := .heading 2 "Subtitle" 3 []

/-- The paragraph of the eyebrow-pattern sequence. -/
def c2p : Element := .paragraph "body" 4

/-- The eyebrow-pattern sequence of the specification. -/
def c2seq : List Element := [c2img, c2h3, c2h1, c2h2, c2p]

/-- A parse tree: a root node of an unmapped kind with one heading child
whose text is one text leaf. -/
def c4ast : Ast :=
  .mk "root" 0 none none "" none false none
    [.mk "heading" 1 none none "" none false none
      [.mk "text" 0 (some "T") none "" none false none []]]

/-- A parse tree: a root node with one paragraph whose only child is an
image with a plain alt text and no role marker. -/
def c5ast : Ast :=
  .mk "root" 0 none none "" none false none
    [.mk "paragraph" 0 none none "" none false none
      [.mk "image" 0 none (some "hero") "x.jpg" none false none []]]

/-- A heading node whose text carries a two-label marker. -/
def c6ast : Ast :=
  .mk "heading" 1 none none "" none false none
    [.mk "text" 0 (some "Title {.a .b}") none "" none false none []]

/-- A heading element at position 0. -/
def c7h : Element := .heading 1 "A" 0 []

/-- A background image element at position 1. -/
def c7img : Element := .image "background" "b.jpg" "bg" none 1

/-- A paragraph element at position 2. -/
def c7p : Element := .paragraph "text" 2

/-- A witness sequence with strictly increasing positions and declared
image roles. -/
def c7wseq : List Element := [c7h, c7img, c7p]

/-- A sequence holding a heading and an icon-role image. -/
def c7cex : List Element := [c7h, .image "icon" "i.svg" "pen" none 1]

/-- The heading placed in the main title slot of the orphaned-content
input. -/
def c8h : Element := .heading 1 "Title" 0 []

/-- Validator input whose single element sits in the title slot of main
and in no content list. -/
def c8content : SectionContent :=
  { sequence := some [c8h]
    groups :=
      { main := some
          { headings := { eyebrow := none, title := some c8h, subtitle := none }
            content := []
            metadata := { level := some 1, hasMedia := false, contentTypes := [] } }
        items := [] }
    byType := { headings := [c8h], images := { background := [] } } }

/-- A background image at position 0. -/
def c9img : Element := .image "background" "bg.jpg" "" none 0

/-- A paragraph at position 1. -/
def c9p : Element := .paragraph "text" 1

/-- A heading at position 2, two positions after the background image. -/
def c9h : Element := .heading 1 "Head" 2 []

/-- Validator input with a background image at position 0 and a heading at
position 2. -/
def c9content : SectionContent :=
  { sequence := some [c9img, c9p, c9h]
    groups :=
      { main := some
          { headings := { eyebrow := none, title := some c9h, subtitle := none }
            content := [c9img, c9p]
            metadata := { level := some 1, hasMedia := true, contentTypes := ["image", "paragraph"] } }
        items := [] }
    byType := { headings := [c9h], images := { background := [c9img] } } }

/-- An image node whose alt text declares the icon role. -/
def c10ast : Ast := .mk "image" 0 none (some "icon: pen") "i.svg" none false none []

/-- The icon-role image element the sequencer produces from c10ast. -/
def c10img : Element := .image "icon" "i.svg" "pen" none 0

/-! ## Theorems -/

/-- C1: the element-conservation invariant fails on the cited processGroups.
On the sequence holding one level-1 heading, the heading is discarded when
the new group is opened (createNewGroup keeps only its level), so the group
content sizes plus the filled heading slots plus the dividers add up to 0
while the input has length 1. -/
theorem c1_conservation_fails :
    (processGroups c1seq).contentSize + (processGroups c1seq).slotCount + dividerCount c1seq = 0
    ∧ c1seq.length = 1 := by
  decide

/-- C2: on the eyebrow-pattern sequence the cited processGroups does not
produce the claimed structure: the level-3 heading becomes the title of
main (not its eyebrow), the content of main is the image (not the
paragraph), the level-1 and level-2 headings are dropped when new groups
are opened, and two item groups remain, the first empty and the second
holding only the paragraph. -/
theorem c2_eyebrow_pattern_diverges :
    (processGroups c2seq).main = some
      { headings := { eyebrow := none, title := some c2h3, subtitle := none }
        content := [c2img]
        metadata := { level := some 3, hasMedia := true, contentTypes := ["image"] } }
    ∧ (processGroups c2seq).items.map Group.content = [[], [c2p]] := by
  decide

/-- Helper: over elements that are neither headings nor dividers, the
grouping loop only appends to the content of the current group and finally
files that group. -/
theorem processGroupsLoop_plain (l : List Element) :
    ∀ (g : Group) (st : Structure),
      (∀ e ∈ l, e.jsType ≠ "heading" ∧ e.jsType ≠ "divider") →
      processGroupsLoop l (some g) st
        = addGroupToStructure { g with content := g.content ++ l } st := by
  induction l with
  | nil =>
      intro g st _
      simp [processGroupsLoop]
  | cons e rest ih =>
      intro g st h
      have he := h e (by simp)
      have hrest : ∀ x ∈ rest, x.jsType ≠ "heading" ∧ x.jsType ≠ "divider" := by
        intro x hx
        exact h x (by simp [hx])
      rw [processGroupsLoop, if_neg he.2, if_neg he.1]
      rw [ih { g with content := g.content ++ [e] } st hrest]
      simp

/-- Helper: filing a group with no title into the empty structure leaves
main empty and appends the group, metadata refreshed but headings and
content untouched, as the only item. -/
theorem addGroupToStructure_untitled (g : Group) (hg : g.headings.title = none) :
    (addGroupToStructure g { main := none, items := [] }).main = none
    ∧ ∃ g2, (addGroupToStructure g { main := none, items := [] }).items = [g2]
        ∧ g2.headings = g.headings ∧ g2.content = g.content := by
  unfold addGroupToStructure isMainGroup
  simp [hg]

/-- C3: a nonempty sequence with no heading and no divider yields an empty
main, and items holds exactly one group whose heading slots are all empty
and whose content is the whole sequence in order. -/
theorem c3_no_headings (seq : List Element) (hne : seq ≠ [])
    (hplain : ∀ e ∈ seq, e.jsType ≠ "heading" ∧ e.jsType ≠ "divider") :
    (processGroups seq).main = none
    ∧ ∃ g, (processGroups seq).items = [g]
        ∧ g.headings = { eyebrow := none, title := none, subtitle := none }
        ∧ g.content = seq := by
  match seq, hne with
  | e :: rest, _ =>
    have he := hplain e (by simp)
    have hrest : ∀ x ∈ rest, x.jsType ≠ "heading" ∧ x.jsType ≠ "divider" := by
      intro x hx
      exact hplain x (by simp [hx])
    have hstep :
        processGroups (e :: rest)
          = processGroupsLoop rest
              (some { headings := { eyebrow := none, title := none, subtitle := none }
                      content := [e]
                      metadata := { level := none, hasMedia := false, contentTypes := [] } })
              { main := none, items := [] } := by
      rw [processGroups, processGroupsLoop, if_neg he.2, if_neg he.1]
      rfl
    rw [hstep, processGroupsLoop_plain rest _ _ hrest]
    have hres := addGroupToStructure_untitled
      { headings := { eyebrow := none, title := none, subtitle := none }
        content := [e] ++ rest
        metadata := { level := none, hasMedia := false, contentTypes := [] } } rfl
    obtain ⟨hmain, g2, hitems, hhead, hcont⟩ := hres
    exact ⟨hmain, g2, hitems, hhead, hcont⟩

/-- C3 witness: the theorem applied to a one-paragraph sequence. -/
theorem c3_no_headings_witness :
    (processGroups [Element.paragraph "x" 0]).main = none
    ∧ ∃ g, (processGroups [Element.paragraph "x" 0]).items = [g]
        ∧ g.headings = { eyebrow := none, title := none, subtitle := none }
        ∧ g.content = [Element.paragraph "x" 0] :=
  c3_no_headings [Element.paragraph "x" 0] (by decide) (by decide)

/-- C4: processSequence advances the position counter at every visited
node, not per emitted element.  On a root of an unmapped kind holding one
heading, the only emitted element carries position 1, so the claimed
identity sequence of positions 0, 1, 2, ... fails already at index 0. -/
theorem c4_positions_not_contiguous :
    processSequence c4ast = [.heading 1 "T" 1 []]
    ∧ (processSequence c4ast).map Element.position
        ≠ List.range (processSequence c4ast).length := by
  decide

/-- C5: the first image emitted with no role marker does not default to the
background role.  On a root holding one image-only paragraph the visit
counter is already past 0 at every image, so both emitted copies of the
image (the paragraph collapse and the revisit of the image child) carry
role content. -/
theorem c5_first_image_not_background :
    processSequence c5ast
      = [.image "content" "x.jpg" "hero" none 1, .image "content" "x.jpg" "hero" none 2]
    ∧ ((processSequence c5ast).head?.map Element.roleD) = some "content" := by
  decide

/-- C6: a heading whose text ends in a two-label marker gets both labels
extracted but keeps the whole marker in its content, because the replace
regex of the heading branch admits exactly one label while the extraction
regex admits several; a one-label marker is stripped. -/
theorem c6_multi_label_marker_not_stripped :
    processSequence c6ast = [.heading 1 "Title {.a .b}" 0 ["a", "b"]]
    ∧ stripLabelMarker "Title {.a}" = "Title"
    ∧ stripLabelMarker "Title {.a .b}" = "Title {.a .b}" := by
  decide

/-- C7 counterexample: on a sequence holding an icon-role image the round
trip fails as stated, because indexing the images object at the undeclared
icon key makes processByType throw. -/
theorem c7_roundtrip_counterexample :
    ¬ ∃ c, processByType c7cex = some c ∧ sortByPosition c.allBucketElements = c7cex := by
  intro h
  obtain ⟨c, hc, _⟩ := h
  have hn : processByType c7cex = none := by decide
  rw [hn] at hc
  exact Option.noConfusion hc

/-- Helper: on an element whose image role is declared, one indexing step
succeeds and adds exactly that element to the buckets. -/
theorem processByTypeStep_declared (ctxSeq : List Element) (i : Nat) (e : Element)
    (c : Collections) (h : imageRoleDeclared e) :
    ∃ c2, processByTypeStep ctxSeq i e c = some c2
      ∧ (c2.allBucketElements : Multiset Element)
          = (c.allBucketElements : Multiset Element) + {e} := by
  cases e with
  | heading l s p ls =>
      refine ⟨_, rfl, ?_⟩
      simp only [Collections.allBucketElements, List.map_append, List.map_cons, List.map_nil,
        ← Multiset.coe_add, ← Multiset.coe_singleton]
      abel
  | paragraph s p =>
      refine ⟨_, rfl, ?_⟩
      simp only [Collections.allBucketElements, List.map_append, List.map_cons, List.map_nil,
        ← Multiset.coe_add, ← Multiset.coe_singleton]
      abel
  | divider p =>
      refine ⟨_, rfl, ?_⟩
      simp only [Collections.allBucketElements, List.map_append, List.map_cons, List.map_nil,
        ← Multiset.coe_add, ← Multiset.coe_singleton]
      abel
  | list o its p =>
      refine ⟨_, rfl, ?_⟩
      simp only [Collections.allBucketElements, List.map_append, List.map_cons, List.map_nil,
        ← Multiset.coe_add, ← Multiset.coe_singleton]
      abel
  | code lg s p =>
      refine ⟨_, rfl, ?_⟩
      simp only [Collections.allBucketElements, List.map_append, List.map_cons, List.map_nil,
        ← Multiset.coe_add, ← Multiset.coe_singleton]
      abel
  | image r s a t p =>
      have hm := h rfl
      simp only [Element.roleD] at hm
      rcases (by simpa using hm :
          (if r = "" then "content" else r) = "background"
          ∨ (if r = "" then "content" else r) = "content"
          ∨ (if r = "" then "content" else r) = "gallery"
          ∨ (if r = "" then "content" else r) = "icons") with hr | hr | hr | hr
      · have hstep : processByTypeStep ctxSeq i (.image r s a t p) c
            = some { c with
                images := { c.images with
                  background := c.images.background ++ [(.image r s a t p, getElementContext ctxSeq i)] }
                metadata := { c.metadata with hasMedia := true } } := by
          simp +decide [processByTypeStep, Element.jsType, Element.roleD, hr]
        refine ⟨_, hstep, ?_⟩
        simp only [Collections.allBucketElements, List.map_append, List.map_cons, List.map_nil,
          ← Multiset.coe_add, ← Multiset.coe_singleton]
        abel
      · have hstep : processByTypeStep ctxSeq i (.image r s a t p) c
            = some { c with
                images := { c.images with
                  content := c.images.content ++ [(.image r s a t p, getElementContext ctxSeq i)] }
                metadata := { c.metadata with hasMedia := true } } := by
          simp +decide [processByTypeStep, Element.jsType, Element.roleD, hr]
        refine ⟨_, hstep, ?_⟩
        simp only [Collections.allBucketElements, List.map_append, List.map_cons, List.map_nil,
          ← Multiset.coe_add, ← Multiset.coe_singleton]
        abel
      · have hstep : processByTypeStep ctxSeq i (.image r s a t p) c
            = some { c with
                images := { c.images with
                  gallery := c.images.gallery ++ [(.image r s a t p, getElementContext ctxSeq i)] }
                metadata := { c.metadata with hasMedia := true } } := by
          simp +decide [processByTypeStep, Element.jsType, Element.roleD, hr]
        refine ⟨_, hstep, ?_⟩
        simp only [Collections.allBucketElements, List.map_append, List.map_cons, List.map_nil,
          ← Multiset.coe_add, ← Multiset.coe_singleton]
        abel
      · have hstep : processByTypeStep ctxSeq i (.image r s a t p) c
            = some { c with
                images := { c.images with
                  icons := c.images.icons ++ [(.image r s a t p, getElementContext ctxSeq i)] }
                metadata := { c.metadata with hasMedia := true } } := by
          simp +decide [processByTypeStep, Element.jsType, Element.roleD, hr]
        refine ⟨_, hstep, ?_⟩
        simp only [Collections.allBucketElements, List.map_append, List.map_cons, List.map_nil,
          ← Multiset.coe_add, ← Multiset.coe_singleton]
        abel

/-- Helper: when every image role in the list is declared, the indexing
loop succeeds and the final buckets hold the starting buckets plus the
processed elements. -/
theorem processByTypeGo_declared (ctxSeq : List Element) (l : List Element) :
    ∀ (i : Nat) (c : Collections),
      (∀ e ∈ l, imageRoleDeclared e) →
      ∃ c2, processByTypeGo ctxSeq l i c = some c2
        ∧ (c2.allBucketElements : Multiset Element)
            = (c.allBucketElements : Multiset Element) + ↑l := by
  induction l with
  | nil =>
      intro i c _
      exact ⟨c, rfl, by simp⟩
  | cons e rest ih =>
      intro i c h
      obtain ⟨c1, hstep, hm1⟩ := processByTypeStep_declared ctxSeq i e c (h e (by simp))
      obtain ⟨c2, hgo, hm2⟩ := ih (i + 1) c1 (fun x hx => h x (by simp [hx]))
      refine ⟨c2, ?_, ?_⟩
      · simp only [processByTypeGo, hstep]
        exact hgo
      · rw [hm2, hm1, add_assoc, Multiset.singleton_add, Multiset.cons_coe]

/-- C7 amended: on a sequence whose positions are strictly increasing and
whose image roles all land in declared buckets, processByType succeeds and
concatenating its buckets and re-sorting by position reproduces the
sequence exactly. -/
theorem processByType_roundTrip (seq : List Element)
    (hsorted : seq.Pairwise posLt)
    (hroles : ∀ e ∈ seq, imageRoleDeclared e) :
    ∃ c, processByType seq = some c ∧ sortByPosition c.allBucketElements = seq := by
  obtain ⟨c0, hgo, hm⟩ := processByTypeGo_declared seq seq 0 (initCollections seq) hroles
  have hm2 : (c0.allBucketElements : Multiset Element) = (seq : Multiset Element) := by
    simpa [initCollections, Collections.allBucketElements] using hm
  refine ⟨{ c0 with metadata := { c0.metadata with
      dominantType := dominantOf (seq.foldl (fun m e => bumpFrequency m e.jsType) []) } }, ?_, ?_⟩
  · rw [processByType, hgo]
  · show sortByPosition c0.allBucketElements = seq
    have hperm : c0.allBucketElements.Perm seq := Multiset.coe_eq_coe.mp hm2
    have hperm2 : (sortByPosition c0.allBucketElements).Perm seq :=
      (List.perm_insertionSort posLe _).trans hperm
    have hsortLe : List.Sorted posLe (sortByPosition c0.allBucketElements) :=
      List.sorted_insertionSort posLe _
    have hndseq : (seq.map Element.position).Nodup := by
      have hlt : (seq.map Element.position).Pairwise (· < ·) :=
        List.pairwise_map.mpr hsorted
      exact hlt.imp Nat.ne_of_lt
    have hnd2 : ((sortByPosition c0.allBucketElements).map Element.position).Nodup :=
      ((hperm2.map Element.position).nodup_iff).mpr hndseq
    have hpairNe :
        (sortByPosition c0.allBucketElements).Pairwise
          (fun a b => a.position ≠ b.position) :=
      List.pairwise_map.mp hnd2
    have hsortLt : List.Sorted posLt (sortByPosition c0.allBucketElements) :=
      (hsortLe.and hpairNe).imp (fun h => Nat.lt_of_le_of_ne h.1 h.2)
    exact List.eq_of_perm_of_sorted hperm2 hsortLt hsorted

/-- C7 witness: the amended round trip evaluated on a concrete sequence of
a heading, a background image and a paragraph. -/
theorem processByType_roundTrip_witness :
    ∃ c, processByType c7wseq = some c ∧ sortByPosition c.allBucketElements = c7wseq :=
  processByType_roundTrip c7wseq (by decide) (by decide)

/-- C8: the validator warns twice, not zero times, about the heading that
sits in the title slot of main: heading-slot positions are not collected
as covered, and the orphaned-content pass runs once from validateStructure
and once more from validateContentGroups. -/
theorem c8_orphaned_content_double_warning :
    (validateContent (some "Hero") none c8content).map Results.warnings
      = some
          [⟨"orphaned_content", "heading element not part of any group"⟩,
           ⟨"orphaned_content", "heading element not part of any group"⟩] := by
  decide

/-- C9: with a heading exactly two positions after a background image the
scan stops one index early (the loop bound is exclusive at position plus
2), the heading is not found, and the suggestion is emitted although the
claim requires none. -/
theorem c9_proximity_window_off_by_one :
    c9h.position = c9img.position + 2
    ∧ findNearbyHeading c9img [c9img, c9p, c9h] = none
    ∧ (validateContent (some "Hero") none c9content).map Results.suggestions
        = some [⟨"orphaned_background", "Background image has no associated heading"⟩] := by
  decide

/-- C10: the sequencer turns an alt text of the form icon colon description
into an image of role icon, and processByType then throws on that element
(none result) instead of returning with the image in the declared icons
bucket. -/
theorem c10_icon_role_throws :
    processImageNode c10ast 0 = c10img
    ∧ c10img.roleD = "icon"
    ∧ processByType [c10img] = none := by
  decide

end Rosetta
